import Mathlib

/-!
# Verification of `android-usbser` (CDC-ACM serial driver)

A shallow embedding of the driver's core components, translated from the
Rust sources:

* `src/usb_sync.rs` — the synchronous-over-asynchronous bulk transfer
  engine (`SyncReader::read`, `SyncWriter::write`);
* `src/ser_cdc.rs`  — the CDC-ACM serial session (`CdcSerial`), the
  interface/endpoint matcher, and the `SerialConfig` codecs (7-byte line
  coding, canonical textual form);
* `src/usb_info.rs` — the descriptor model (interfaces, endpoints).

Machine integers are modelled as `Nat` (with explicit `% 2 ^ 32` bounds
where u32 overflow matters); byte buffers as `List Nat`; Rust strings as
`List Char`; fallible calls as `Option`/`Except`.  The asynchronous USB
layer (the `nusb` queue, JNI calls) is the environment: each call takes an
explicit environment record describing what the platform layer delivers.
-/

namespace AndroidUsbser

/-! ## Error model

`nusb::transfer::TransferError` (the status carried by an asynchronous
completion) and `std::io::Error` (what the driver's public operations
return), restricted to the kinds and payloads this crate constructs. -/

/-- Model of `nusb::transfer::TransferError`. -/
inductive TransferError
  | cancelled
  | stall
  | disconnected
  | fault
  | invalidArgument
  | unknown
  deriving DecidableEq, Repr

/-- The `std::io::ErrorKind` values used by this crate. -/
inductive IoErrorKind
  | notFound
  | permissionDenied
  | notConnected
  | timedOut
  | interrupted
  | unsupported
  | invalidInput
  | otherKind
  deriving DecidableEq, Repr

/-- Model of `src/usb_conn.rs`: `usb::Error`, the errors of the Android USB layer. -/
inductive UsbError
  | access
  | transfer (n : Int)
  | badParam
  | jniEnv
  | notSet
  | notSupported
  | noDevice
  | javaException (s : String)
  | otherStr (s : String)
  deriving DecidableEq, Repr

/-- The payload attached to a `std::io::Error` by this crate: nothing, a
static string, a wrapped `usb::Error`, or a wrapped `TransferError`. -/
inductive IoPayload
  | nothing
  | str (s : String)
  | usb (e : UsbError)
  | transfer (e : TransferError)
  deriving DecidableEq, Repr

/-- A `std::io::Error` as constructed by this crate: a kind plus payload. -/
structure IoError where
  kind : IoErrorKind
  payload : IoPayload
  deriving DecidableEq, Repr

/-! ## Transfer engine (`src/usb_sync.rs`)

`SyncReader::read` and `SyncWriter::write` wrap one outstanding
asynchronous transfer in a blocking call.  The asynchronous side is the
environment: whether `block_for_timeout` yields a completion before the
deadline, what `queue.pending()` reports after `cancel_all()`, and which
completion the unbounded `block_on(next_complete())` delivers. -/

/-- An IN-transfer completion (`nusb` `Completion<Vec<u8>>`):
`status` is `none` for `Ok(())`, `some e` for `Err(e)`; `data` is the
received byte buffer. -/
structure ReadComp where
  status : Option TransferError
  data : List Nat
  deriving DecidableEq, Repr

/-- An OUT-transfer completion (`nusb` `Completion<ResponseBuffer>`):
`status` as in `ReadComp`; `actual_length` is `comp.data.actual_length()`. -/
structure WriteComp where
  status : Option TransferError
  actual_length : Nat
  deriving DecidableEq, Repr

/-- Environment of one `SyncReader::read` call. -/
structure ReadEnv where
  /-- The result of `block_for_timeout(fut, timeout)`: `some` when the completion beat
  the deadline. -/
  timelyComp : Option ReadComp
  /-- The count `queue.pending()` observed right after `cancel_all()`. -/
  pendingAfterCancel : Nat
  /-- the completion delivered by `block_on(queue.next_complete())` on the
  cancellation path. -/
  lateComp : ReadComp
  deriving DecidableEq, Repr

/-- Environment of one `SyncWriter::write` call. -/
structure WriteEnv where
  timelyComp : Option WriteComp
  pendingAfterCancel : Nat
  lateComp : WriteComp
  deriving DecidableEq, Repr

/-- The error `Error::other("Unable to get the transfer result")`: the failure of the
race between deadline expiry and hardware completion. -/
def resultUnavailableErr : IoError :=
  ⟨.otherKind, .str "Unable to get the transfer result"⟩

/-- How `read`/`write` obtain the completion they classify (lines 37–49 /
115–127 of `src/usb_sync.rs`): a timely completion is used as is; otherwise
`cancel_all()` is issued, and either nothing is pending (the race: fail)
or the cancelled request's own completion is awaited without a deadline. -/
def obtainCompletion {α : Type} (timely : Option α) (pending : Nat)
    (late : α) : Except IoError α :=
  match timely with
  | some c => .ok c
  | none =>
      if pending = 0 then .error resultUnavailableErr
      else .ok late

/-- Model of `buf[..n].copy_from_slice(&src)` where `n = src.length`: `none` models
the panic when the source does not fit into the caller's buffer. -/
def copyIntoFront (dst src : List Nat) : Option (List Nat) :=
  if src.length ≤ dst.length then some (src ++ dst.drop src.length) else none

/-- Everything observable when a `SyncReader::read` call returns. -/
structure ReadOutcome where
  /-- the `std::io::Result<usize>` returned to the caller. -/
  result : Except IoError Nat
  /-- The field `self.buf` (the engine's reuse slot) after the call. -/
  slot : Option (List Nat)
  /-- the caller's `buf` after the call. -/
  callerBuf : List Nat
  /-- whether `queue.clear_halt()` was issued (the `Stall` arm). -/
  clearHaltCalled : Bool
  deriving Repr

/-- Everything observable when a `SyncWriter::write` call returns. -/
structure WriteOutcome where
  result : Except IoError Nat
  slot : Option (List Nat)
  clearHaltCalled : Bool
  deriving Repr

/-- Model of `SyncReader::read` (`src/usb_sync.rs`, lines 27–74).  `slot` is
`self.buf`; `callerBuf` is the caller's `buf` (its contents, so its length
is `buf.len()`).  `none` models a panic (`take().unwrap()` on an empty
slot, or an oversized `copy_from_slice`). -/
def SyncReader.read (slot : Option (List Nat)) (callerBuf : List Nat)
    (env : ReadEnv) : Option ReadOutcome :=
  if callerBuf.isEmpty then
    some ⟨.ok 0, slot, callerBuf, false⟩
  else
    match slot with
    | none => none
    | some _bufAsync =>
      -- `RequestBuffer::reuse(buf_async, buf.len())` is submitted; its
      -- contents are irrelevant to the completion, which the environment
      -- provides.
      match obtainCompletion env.timelyComp env.pendingAfterCancel env.lateComp with
      | .error e =>
          -- `self.buf.replace(Vec::new()); return Err(...)`
          some ⟨.error e, some [], callerBuf, false⟩
      | .ok comp =>
        let lenReceived := comp.data.length
        match comp.status with
        | none =>
            match copyIntoFront callerBuf comp.data with
            | none => none
            | some buf' => some ⟨.ok lenReceived, some comp.data, buf', false⟩
        | some .cancelled =>
            if lenReceived > 0 then
              match copyIntoFront callerBuf comp.data with
              | none => none
              | some buf' => some ⟨.ok lenReceived, some comp.data, buf', false⟩
            else
              some ⟨.error ⟨.timedOut, .nothing⟩, some comp.data, callerBuf, false⟩
        | some .disconnected =>
            some ⟨.error ⟨.notConnected, .nothing⟩, some comp.data, callerBuf, false⟩
        | some .stall =>
            some ⟨.error ⟨.otherKind, .transfer .stall⟩, some comp.data, callerBuf, true⟩
        | some e =>
            some ⟨.error ⟨.otherKind, .transfer e⟩, some comp.data, callerBuf, false⟩

/-- Model of `SyncWriter::write` (`src/usb_sync.rs`, lines 105–148).  The submitted
buffer is the reused vector refilled with the caller's bytes; after the
completion, `comp.data.reuse()` (an empty vector retaining capacity) is
restored into the slot, modelled as `[]`. -/
def SyncWriter.write (slot : Option (List Nat)) (callerBuf : List Nat)
    (env : WriteEnv) : Option WriteOutcome :=
  if callerBuf.isEmpty then
    some ⟨.ok 0, slot, false⟩
  else
    match slot with
    | none => none
    | some _bufAsync =>
      match obtainCompletion env.timelyComp env.pendingAfterCancel env.lateComp with
      | .error e => some ⟨.error e, some [], false⟩
      | .ok comp =>
        let lenSent := comp.actual_length
        match comp.status with
        | none => some ⟨.ok lenSent, some [], false⟩
        | some .cancelled =>
            if lenSent > 0 then
              some ⟨.ok lenSent, some [], false⟩
            else
              some ⟨.error ⟨.timedOut, .nothing⟩, some [], false⟩
        | some .disconnected =>
            some ⟨.error ⟨.notConnected, .nothing⟩, some [], false⟩
        | some .stall =>
            some ⟨.error ⟨.otherKind, .transfer .stall⟩, some [], true⟩
        | some e =>
            some ⟨.error ⟨.otherKind, .transfer e⟩, some [], false⟩

/-! ## `SerialConfig` and the 7-byte line coding (`src/ser_cdc.rs`) -/

/-- Number of bits per character (`DataBits`). -/
inductive DataBits
  | five
  | six
  | seven
  | eight
  | sixteen
  deriving DecidableEq, Repr

/-- Parity checking modes (`Parity`). -/
inductive Parity
  | none
  | odd
  | even
  | mark
  | space
  deriving DecidableEq, Repr

/-- Stop bits transmitted after every character (`StopBits`). -/
inductive StopBits
  | one
  | onePointFive
  | two
  deriving DecidableEq, Repr

/-- Model of `SerialConfig`: baud rate (u32, modelled as `Nat`; theorems impose
`< 2 ^ 32` where the bound matters), parity, data bits, stop bits. -/
structure SerialConfig where
  baud_rate : Nat
  parity : Parity
  data_bits : DataBits
  stop_bits : StopBits
  deriving DecidableEq, Repr

/-- Model of `SerialConfig::default()`: 9600 baud, no parity, 8 data bits, 1 stop bit. -/
def SerialConfig.default : SerialConfig :=
  ⟨9600, .none, .eight, .one⟩

/-- Model of `u32::to_le_bytes` on a `Nat` (little-endian, 4 bytes). -/
def u32ToLeBytes (n : Nat) : List Nat :=
  [n % 256, n / 256 % 256, n / 65536 % 256, n / 16777216 % 256]

/-- Byte 4 of the line coding (`bytes[4]`, from `self.stop_bits`). -/
def StopBits.code : StopBits → Nat
  | .one => 0
  | .onePointFive => 1
  | .two => 2

/-- Byte 5 of the line coding (`bytes[5]`, from `self.parity`). -/
def Parity.code : Parity → Nat
  | .none => 0
  | .odd => 1
  | .even => 2
  | .mark => 3
  | .space => 4

/-- Byte 6 of the line coding (`bytes[6]`, from `self.data_bits`). -/
def DataBits.value : DataBits → Nat
  | .five => 5
  | .six => 6
  | .seven => 7
  | .eight => 8
  | .sixteen => 16

/-- Model of `impl Into<[u8; 7]> for SerialConfig` (`src/ser_cdc.rs`, lines
355–381): bytes 0–3 hold the baud rate little-endian, byte 4 the stop-bits
code, byte 5 the parity code, byte 6 the data-bits value. -/
def SerialConfig.toLineCoding (c : SerialConfig) : List Nat :=
  u32ToLeBytes c.baud_rate ++ [c.stop_bits.code, c.parity.code, c.data_bits.value]

/-- Little-endian value of the first four bytes (for stating that bytes
0–3 of the line coding really encode the baud rate). -/
def leValue4 : List Nat → Nat
  | b0 :: b1 :: b2 :: b3 :: _ => b0 + 256 * b1 + 65536 * b2 + 16777216 * b3
  | _ => 0

/-! ## The CDC-ACM serial session (`src/ser_cdc.rs`)

`CdcSerial` holds a device handle, the interface/endpoint selections, and
the mutable session state.  Only the mutable state matters for the session
claims; the underlying JNI transfer (`write_control`, `read_bulk`,
`write_bulk`) and `check_connection()` are the environment of one call. -/

/-- The mutable state of a `CdcSerial` session: the `is_connected` cell,
the cached `ser_conf`, and the cached `dtr_rts` pair. -/
structure CdcState where
  is_connected : Bool
  ser_conf : Option SerialConfig
  dtr_rts : Bool × Bool
  deriving DecidableEq, Repr

/-- Environment of one session operation: the result the underlying USB
call would deliver (bytes transferred, or a `usb::Error`), and what
`handle.check_connection()` would report. -/
structure UsbCallEnv where
  usbResult : Except UsbError Nat
  checkConnection : Bool
  deriving Repr

/-- The outcome of a session operation returning `io::Result<α>`:
the state after the call, the result, and whether the underlying USB
transfer was attempted at all. -/
structure SessionOutcome (α : Type) where
  state : CdcState
  result : Except IoError α
  attempted : Bool
  deriving Repr

/-- The error built by `CdcSerial::get_handle` on a disconnected session. -/
def disconnectedErr : IoError :=
  ⟨.notConnected, .str "the device has been disconnected"⟩

/-- Model of `CdcSerial::get_handle` (lines 193–202): fails fast with
`NotConnected` when the `is_connected` cell is false. -/
def CdcSerial.get_handle (s : CdcState) : Except IoError Unit :=
  if s.is_connected then .ok () else .error disconnectedErr

/-- Model of `CdcSerial::err_map_to_io` (lines 206–213): on a USB error, keep the
error as `Other` while the device is still connected; otherwise flip the
`is_connected` cell to false and report `NotConnected`. -/
def CdcSerial.err_map_to_io (s : CdcState) (checkConnection : Bool)
    (e : UsbError) : CdcState × IoError :=
  if s.is_connected && checkConnection then
    (s, ⟨.otherKind, .usb e⟩)
  else
    ({ s with is_connected := false }, ⟨.notConnected, .usb e⟩)

/-- The error built by `cdc_acm_ctrl_set` on a short control write. -/
def wrongWrittenSizeErr : IoError :=
  ⟨.interrupted, .str "cdc_acm_ctrl_set(), wrong written size"⟩

/-- Model of `CdcSerial::cdc_acm_ctrl_set` (lines 171–191): `get_handle`, then
`write_control` (whose result the environment supplies), mapping USB
errors through `err_map_to_io`; a written size different from the payload
length is an `Interrupted` protocol error. -/
def CdcSerial.cdc_acm_ctrl_set (s : CdcState) (env : UsbCallEnv)
    (bufLen : Nat) : SessionOutcome Unit :=
  match CdcSerial.get_handle s with
  | .error e => ⟨s, .error e, false⟩
  | .ok _ =>
    match env.usbResult with
    | .error e =>
        let (s', ioe) := CdcSerial.err_map_to_io s env.checkConnection e
        ⟨s', .error ioe, true⟩
    | .ok szWrite =>
        if szWrite = bufLen then ⟨s, .ok (), true⟩
        else ⟨s, .error wrongWrittenSizeErr, true⟩

/-- Model of `CdcSerial::set_config` (lines 148–153): send the 7-byte line coding
via `SET_LINE_CODING`; only on success replace the cached `ser_conf`. -/
def CdcSerial.set_config (s : CdcState) (env : UsbCallEnv)
    (conf : SerialConfig) : SessionOutcome Unit :=
  let o := CdcSerial.cdc_acm_ctrl_set s env conf.toLineCoding.length
  match o.result with
  | .ok _ => ⟨{ o.state with ser_conf := some conf }, .ok (), o.attempted⟩
  | .error e => ⟨o.state, .error e, o.attempted⟩

/-- Model of `CdcSerial::set_dtr_rts` (lines 156–163): an empty-payload
`SET_CONTROL_LINE_STATE`; only on success replace the cached pair. -/
def CdcSerial.set_dtr_rts (s : CdcState) (env : UsbCallEnv)
    (dtr rts : Bool) : SessionOutcome Unit :=
  let o := CdcSerial.cdc_acm_ctrl_set s env 0
  match o.result with
  | .ok _ => ⟨{ o.state with dtr_rts := (dtr, rts) }, .ok (), o.attempted⟩
  | .error e => ⟨o.state, .error e, o.attempted⟩

/-- Model of `CdcSerial::set_break_state` (lines 166–169): an empty-payload
`SEND_BREAK`; no cached state besides the connection cell. -/
def CdcSerial.set_break_state (s : CdcState) (env : UsbCallEnv)
    (_val : Bool) : SessionOutcome Unit :=
  CdcSerial.cdc_acm_ctrl_set s env 0

/-- Model of `<CdcSerial as Read>::read` (lines 216–222): `get_handle`, then the
underlying `read_bulk`, mapping errors through `err_map_to_io`. -/
def CdcSerial.read (s : CdcState) (env : UsbCallEnv) : SessionOutcome Nat :=
  match CdcSerial.get_handle s with
  | .error e => ⟨s, .error e, false⟩
  | .ok _ =>
    match env.usbResult with
    | .ok n => ⟨s, .ok n, true⟩
    | .error e =>
        let (s', ioe) := CdcSerial.err_map_to_io s env.checkConnection e
        ⟨s', .error ioe, true⟩

/-- Model of `<CdcSerial as Write>::write` (lines 224–229): same shape as `read`
over `write_bulk`. -/
def CdcSerial.write (s : CdcState) (env : UsbCallEnv) : SessionOutcome Nat :=
  match CdcSerial.get_handle s with
  | .error e => ⟨s, .error e, false⟩
  | .ok _ =>
    match env.usbResult with
    | .ok n => ⟨s, .ok n, true⟩
    | .error e =>
        let (s', ioe) := CdcSerial.err_map_to_io s env.checkConnection e
        ⟨s', .error ioe, true⟩

/-! ## Descriptor model (`src/usb_info.rs`)

Immutable snapshots of the Android USB descriptors.  Only the fields the
matcher and `build` read are modelled; the fallible JNI enumeration calls
(`get_interfaces`, `get_endpoints`) are modelled as `Option` fields of the
snapshot. -/

/-- Model of `EndpointDirection`: IN or OUT (`in'` models the Rust `In`, a Lean
keyword). -/
inductive EndpointDirection
  | in'
  | out
  deriving DecidableEq, Repr

/-- Model of `EndpointType`: USB transfer types. -/
inductive EndpointType
  | control
  | isochronous
  | bulk
  | interrupt
  deriving DecidableEq, Repr

/-- Model of `EndpointInfo` (`android.hardware.usb.UsbEndpoint` snapshot). -/
structure EndpointInfo where
  number : Nat
  address : Nat
  direction : EndpointDirection
  transfer_type : EndpointType
  max_packet_size : Nat
  interval : Nat
  deriving DecidableEq, Repr

/-- Model of `InterfaceInfo` (`android.hardware.usb.UsbInterface` snapshot): one
interface entry, i.e. one alternate setting.  `cls` models the Rust field
`class` (a Lean keyword); `endpoints` is the result `get_endpoints()`
would deliver (`none` = JNI failure). -/
structure InterfaceInfo where
  interface_number : Nat
  alternate_setting : Option Nat
  cls : Nat
  sub_class : Nat
  protocol : Nat
  endpoints : Option (List EndpointInfo)
  deriving DecidableEq, Repr

/-- Model of `DeviceInfo` (`android.hardware.usb.UsbDevice` snapshot), projected to
what the matcher reads: `interfaces` is the result `get_interfaces()`
would deliver (`none` = JNI failure).  Identification fields (vendor id,
product id, path name, strings) play no role in the matcher and are
omitted. -/
structure DeviceInfo where
  interfaces : Option (List InterfaceInfo)
  deriving DecidableEq, Repr

def USB_INTR_CLASS_COMM : Nat := 0x02
def USB_INTR_SUBCLASS_ACM : Nat := 0x02
def USB_INTR_CLASS_CDC_DATA : Nat := 0x0A

/-- The Communication-interface test of `cdc_acm_intrs`:
`intr.class() == USB_INTR_CLASS_COMM && intr.sub_class() == USB_INTR_SUBCLASS_ACM`. -/
def isCommIntr (i : InterfaceInfo) : Bool :=
  i.cls = USB_INTR_CLASS_COMM && i.sub_class = USB_INTR_SUBCLASS_ACM

/-- The Data-interface test of `cdc_acm_intrs`:
`intr.class() == USB_INTR_CLASS_CDC_DATA`. -/
def isDataIntr (i : InterfaceInfo) : Bool :=
  i.cls = USB_INTR_CLASS_CDC_DATA

/-- The `for intr in vec_intr` loop of `cdc_acm_intrs` (lines 126–132):
`get_or_insert` keeps the first hit of each kind; the Data test sits in
the `else if` branch. -/
def cdcAcmIntrsLoop : List InterfaceInfo → Option InterfaceInfo →
    Option InterfaceInfo → Option InterfaceInfo × Option InterfaceInfo
  | [], intr_comm, intr_data => (intr_comm, intr_data)
  | intr :: rest, intr_comm, intr_data =>
    if isCommIntr intr then
      cdcAcmIntrsLoop rest (intr_comm <|> some intr) intr_data
    else if isDataIntr intr then
      cdcAcmIntrsLoop rest intr_comm (intr_data <|> some intr)
    else
      cdcAcmIntrsLoop rest intr_comm intr_data

/-- Model of `CdcSerial::cdc_acm_intrs` (lines 123–138): `some (intr_comm,
intr_data)` iff the device exposes both a Communication (class 0x02,
subclass 0x02) and a Data (class 0x0A) interface; `none` (not matched,
not an error) otherwise or when enumeration fails. -/
def CdcSerial.cdc_acm_intrs (dev : DeviceInfo) :
    Option (InterfaceInfo × InterfaceInfo) :=
  match dev.interfaces with
  | none => none
  | some vec_intr =>
    match cdcAcmIntrsLoop vec_intr none none with
    | (some intr_comm, some intr_data) => some (intr_comm, intr_data)
    | _ => none

/-- The `for dev in vec_dev` filter loop of `CdcSerial::probe`
(lines 65–70): keep the devices the matcher accepts, in order. -/
def CdcSerial.probe : List DeviceInfo → List DeviceInfo
  | [] => []
  | dev :: rest =>
    if (CdcSerial.cdc_acm_intrs dev).isSome then
      dev :: CdcSerial.probe rest
    else
      CdcSerial.probe rest

/-- The failures of `CdcSerial::build` up to endpoint selection. -/
inductive BuildError
  /-- The `ErrorKind::InvalidInput` failure, "not a CDC-ACM device". -/
  | notACdcDevice
  /-- The `Error::other` failure from a failing `get_endpoints()`. -/
  | getEndpointsFailed
  /-- The `ErrorKind::NotFound` failure, "data endpoints not found". -/
  | endpointsNotFound
  deriving DecidableEq, Repr

/-- The `for endp in ...filter(bulk)` loop of `build` (lines 83–94):
`get_or_insert` keeps the first bulk endpoint of each direction. -/
def selectBulkLoop : List EndpointInfo → Option EndpointInfo →
    Option EndpointInfo → Option EndpointInfo × Option EndpointInfo
  | [], endp_r, endp_w => (endp_r, endp_w)
  | endp :: rest, endp_r, endp_w =>
    if endp.direction = EndpointDirection.in' then
      selectBulkLoop rest (endp_r <|> some endp) endp_w
    else
      selectBulkLoop rest endp_r (endp_w <|> some endp)

/-- Model of `CdcSerial::build`, interface matching and endpoint resolution
(lines 78–99): match the interfaces, then pick the first bulk-IN and
first bulk-OUT endpoint of the matched Data interface entry; the
remaining steps of `build` (opening the device, claiming interfaces) are
platform effects past the selection this models. -/
def CdcSerial.build_endpoints (dev : DeviceInfo) :
    Except BuildError (EndpointInfo × EndpointInfo) :=
  match CdcSerial.cdc_acm_intrs dev with
  | none => .error .notACdcDevice
  | some (_intr_comm, intr_data) =>
    match intr_data.endpoints with
    | none => .error .getEndpointsFailed
    | some endps =>
      let bulk := endps.filter (fun e => e.transfer_type = EndpointType.bulk)
      match selectBulkLoop bulk none none with
      | (some endp_r, some endp_w) => .ok (endp_r, endp_w)
      | _ => .error .endpointsNotFound

/-- Whether an interface entry exposes both a bulk-IN and a bulk-OUT
endpoint (used to state the spec's alternate-setting selection rule). -/
def InterfaceInfo.hasBothBulk (i : InterfaceInfo) : Bool :=
  match i.endpoints with
  | none => false
  | some endps =>
      (endps.any fun e =>
        e.transfer_type = EndpointType.bulk && e.direction = EndpointDirection.in') &&
      (endps.any fun e =>
        e.transfer_type = EndpointType.bulk && e.direction = EndpointDirection.out)

/-- Modelled from the spec (§4.1): the alternate settings of the Data
interface are the device's Data-class (0x0A) interface entries, and the
spec's rule picks the first of them exposing both bulk directions.  The
source has no such scan; this definition exists to compare the spec's
words with `CdcSerial.build_endpoints`. -/
def specFirstAltWithBothBulk (dev : DeviceInfo) : Option InterfaceInfo :=
  match dev.interfaces with
  | none => none
  | some vec_intr => (vec_intr.filter isDataIntr).find? InterfaceInfo.hasBothBulk

/-! ## Canonical textual form of `SerialConfig` (`src/ser_cdc.rs`)

`impl Display for SerialConfig` and `impl FromStr for SerialConfig`,
with Rust strings embedded as `List Char`.  The standard-library numeric
parsers are modelled as follows: `u32`/`i32` parsing accepts an optional
sign followed by decimal digits, with the type's range check; the
stop-bits field (parsed as a float in the source and matched against the
exact values `1.`, `1.5`, `2.`) is modelled as exact decimal parsing —
these agree with the source on every string whose decimal value is
exactly representable, in particular on all canonical forms. -/

/-- The decimal digit characters. -/
def isDigitChar (c : Char) : Bool :=
  48 ≤ c.toNat && c.toNat ≤ 57

/-- The character of a decimal digit. -/
def digitToChar (d : Nat) : Char :=
  Char.ofNat (48 + d)

/-- ASCII whitespace (model of `str::trim`'s `char::is_whitespace`,
restricted to the ASCII characters any canonical or tested form uses). -/
def isWsChar (c : Char) : Bool :=
  c = ' ' || c = '\t' || c = '\n' || c = '\r'

/-- Model of `str::trim`: drop whitespace from both ends. -/
def trimChars (cs : List Char) : List Char :=
  ((cs.dropWhile isWsChar).reverse.dropWhile isWsChar).reverse

/-- Model of `s.split(',')`: the comma-separated fields, in order; always at least
one field (an empty string yields one empty field, as in Rust). -/
def splitComma : List Char → List (List Char)
  | [] => [[]]
  | c :: rest =>
    if c = ',' then [] :: splitComma rest
    else
      match splitComma rest with
      | [] => [[c]]
      | f :: r => (c :: f) :: r

/-- Decimal value of a digit string, accumulator style. -/
def parseDigitsAcc : List Char → Nat → Option Nat
  | [], acc => some acc
  | c :: rest, acc =>
    if isDigitChar c then parseDigitsAcc rest (acc * 10 + (c.toNat - 48))
    else none

/-- A leading `+` sign, accepted by the Rust integer and float parsers. -/
def stripPlus : List Char → List Char
  | '+' :: rest => rest
  | cs => cs

/-- Model of `u32::from_str`: optional `+`, one or more digits, value below
`2 ^ 32` (a leading `-` fails: the first character is not a digit). -/
def parseU32 (cs : List Char) : Option Nat :=
  match stripPlus cs with
  | [] => none
  | ds =>
    match parseDigitsAcc ds 0 with
    | none => none
    | some v => if v < 2 ^ 32 then some v else none

/-- Model of `i32::from_str`: optional sign, one or more digits, i32 range. -/
def parseI32 (cs : List Char) : Option Int :=
  match cs with
  | '-' :: rest =>
    match rest, parseDigitsAcc rest 0 with
    | _ :: _, some v => if v ≤ 2 ^ 31 then some (-(v : Int)) else none
    | _, _ => none
  | _ =>
    match stripPlus cs with
    | [] => none
    | ds =>
      match parseDigitsAcc ds 0 with
      | none => none
      | some v => if v < 2 ^ 31 then some ((v : Int)) else none

/-- Exact decimal parsing for the stop-bits field: optional `+`, then
`digits [. digits]` or `. digits`; the result is `(num, k)` denoting
`num / 10 ^ k`. -/
def parseDecimal (cs : List Char) : Option (Nat × Nat) :=
  let cs := stripPlus cs
  let intPart := cs.takeWhile isDigitChar
  let rest := cs.dropWhile isDigitChar
  match rest with
  | [] =>
    if intPart.isEmpty then none
    else
      match parseDigitsAcc intPart 0 with
      | some v => some (v, 0)
      | none => none
  | '.' :: rest2 =>
    let fracPart := rest2.takeWhile isDigitChar
    if (rest2.dropWhile isDigitChar).isEmpty && !(intPart.isEmpty && fracPart.isEmpty) then
      match parseDigitsAcc (intPart ++ fracPart) 0 with
      | some v => some (v, fracPart.length)
      | none => none
    else none
  | _ => none

/-- The stop-bits match of `from_str` (`1. | 1.5 | 2.`), on the exact
decimal value `num / 10 ^ k`. -/
def stopBitsOfDecimal (num k : Nat) : Option StopBits :=
  if num = 10 ^ k then some .one
  else if 2 * num = 3 * 10 ^ k then some .onePointFive
  else if num = 2 * 10 ^ k then some .two
  else none

/-- The parity match of `from_str`, on the first character of the
trimmed field. -/
def parityOfChar : Char → Option Parity
  | 'N' => some .none
  | 'O' => some .odd
  | 'E' => some .even
  | 'M' => some .mark
  | 'S' => some .space
  | _ => Option.none

/-- The data-bits match of `from_str` (`5 | 6 | 7 | 8 | 16`). -/
def dataBitsOfInt (n : Int) : Option DataBits :=
  if n = 5 then some .five
  else if n = 6 then some .six
  else if n = 7 then some .seven
  else if n = 8 then some .eight
  else if n = 16 then some .sixteen
  else none

/-- Model of `impl FromStr for SerialConfig` (`src/ser_cdc.rs`, lines 266–327):
four comma-separated fields, each trimmed; the baud rate as u32, the
parity by its first character, the data bits as an integer matched
against 5/6/7/8/16, the stop bits as a number matched against 1/1.5/2.
Fields past the fourth are never requested from the split iterator.  All
failure paths carry the same `InvalidInput` error, modelled as `none`. -/
def SerialConfig.from_str (s : List Char) : Option SerialConfig :=
  let strs := splitComma s
  match strs.get? 0 with
  | none => none
  | some str_baud =>
  match parseU32 (trimChars str_baud) with
  | none => none
  | some baud_rate =>
  match strs.get? 1 with
  | none => none
  | some str_parity =>
  match (trimChars str_parity).head? with
  | none => none
  | some ch =>
  match parityOfChar ch with
  | none => none
  | some parity =>
  match strs.get? 2 with
  | none => none
  | some str_data_bits =>
  match parseI32 (trimChars str_data_bits) with
  | none => none
  | some db =>
  match dataBitsOfInt db with
  | none => none
  | some data_bits =>
  match strs.get? 3 with
  | none => none
  | some str_stop_bits =>
  match parseDecimal (trimChars str_stop_bits) with
  | none => none
  | some (num, k) =>
  match stopBitsOfDecimal num k with
  | none => none
  | some stop_bits => some ⟨baud_rate, parity, data_bits, stop_bits⟩

/-- The decimal rendering of a `Nat` (model of the `Display` of `u32`). -/
def natChars (n : Nat) : List Char :=
  if _h : n < 10 then [digitToChar n]
  else natChars (n / 10) ++ [digitToChar (n % 10)]
termination_by n
decreasing_by exact Nat.div_lt_self (by omega) (by omega)

/-- The parity letter written by `Display` (`'N' | 'O' | 'E' | 'M' | 'S'`). -/
def Parity.letter : Parity → Char
  | .none => 'N'
  | .odd => 'O'
  | .even => 'E'
  | .mark => 'M'
  | .space => 'S'

/-- The data-bits field written by `Display` (`"5" | "6" | "7" | "8" | "16"`). -/
def DataBits.chars : DataBits → List Char
  | .five => ['5']
  | .six => ['6']
  | .seven => ['7']
  | .eight => ['8']
  | .sixteen => ['1', '6']

/-- The stop-bits field written by `Display` (`"1" | "1.5" | "2"`). -/
def StopBits.chars : StopBits → List Char
  | .one => ['1']
  | .onePointFive => ['1', '.', '5']
  | .two => ['2']

/-- Model of `impl Display for SerialConfig` (`src/ser_cdc.rs`, lines 329–353):
the canonical textual form `<baud>,<parity-letter>,<data-bits>,<stop-bits>`. -/
def SerialConfig.format (c : SerialConfig) : List Char :=
  natChars c.baud_rate ++ ',' :: c.parity.letter :: ',' ::
    (c.data_bits.chars ++ ',' :: c.stop_bits.chars)

/-! ## Theorems: the transfer engine (claims C1–C3) -/

/-- C1: for every read or write on the transfer engine whose completion
status is `Cancelled`, a nonzero byte count N yields success with N (for
read, after copying the N bytes into the caller buffer's prefix), and a
zero byte count yields a `TimedOut` failure. -/
theorem claim_C1_cancelled_completion :
    (∀ (b callerBuf : List Nat) (env : ReadEnv) (c : ReadComp),
      callerBuf ≠ [] →
      obtainCompletion env.timelyComp env.pendingAfterCancel env.lateComp = .ok c →
      c.status = some TransferError.cancelled →
      c.data.length ≤ callerBuf.length →
      (0 < c.data.length →
        SyncReader.read (some b) callerBuf env =
          some ⟨.ok c.data.length, some c.data,
            c.data ++ callerBuf.drop c.data.length, false⟩) ∧
      (c.data.length = 0 →
        SyncReader.read (some b) callerBuf env =
          some ⟨.error ⟨.timedOut, .nothing⟩, some c.data, callerBuf, false⟩)) ∧
    (∀ (b callerBuf : List Nat) (env : WriteEnv) (c : WriteComp),
      callerBuf ≠ [] →
      obtainCompletion env.timelyComp env.pendingAfterCancel env.lateComp = .ok c →
      c.status = some TransferError.cancelled →
      (0 < c.actual_length →
        SyncWriter.write (some b) callerBuf env =
          some ⟨.ok c.actual_length, some [], false⟩) ∧
      (c.actual_length = 0 →
        SyncWriter.write (some b) callerBuf env =
          some ⟨.error ⟨.timedOut, .nothing⟩, some [], false⟩)) := by
  constructor
  · intro b callerBuf env c hne hobt hst hlen
    have hne' : callerBuf.isEmpty = false := by
      simpa [List.isEmpty_iff] using hne
    constructor
    · intro hpos
      simp [SyncReader.read, hne', hobt, hst, copyIntoFront, hlen, hpos]
    · intro hzero
      simp [SyncReader.read, hne', hobt, hst, hzero]
  · intro b callerBuf env c hne hobt hst
    have hne' : callerBuf.isEmpty = false := by
      simpa [List.isEmpty_iff] using hne
    constructor
    · intro hpos
      simp [SyncWriter.write, hne', hobt, hst, hpos]
    · intro hzero
      simp [SyncWriter.write, hne', hobt, hst, hzero]

/-- C1 witness: a read with a cancelled completion carrying one byte
returns `Ok(1)` with the byte copied into the caller buffer's prefix. -/
theorem claim_C1_cancelled_completion_witness :
    SyncReader.read (some []) [0, 0]
        ⟨some ⟨some TransferError.cancelled, [5]⟩, 0, ⟨Option.none, []⟩⟩ =
      some ⟨.ok 1, some [5], [5, 0], false⟩ :=
  (claim_C1_cancelled_completion.1 [] [0, 0]
      ⟨some ⟨some TransferError.cancelled, [5]⟩, 0, ⟨Option.none, []⟩⟩
      ⟨some TransferError.cancelled, [5]⟩
      (by decide) rfl rfl (by decide)).1 (by decide)

/-- C2: for every read or write whose deadline fires before the
completion, the engine cancels; if nothing is pending it restores an
empty buffer and fails with an `Other` error, otherwise the call behaves
exactly as if the cancelled request's own completion had been the one
delivered, classified as usual. -/
theorem claim_C2_deadline_cancellation :
    (∀ (b callerBuf : List Nat) (env : ReadEnv),
      callerBuf ≠ [] → env.timelyComp = none →
      (env.pendingAfterCancel = 0 →
        SyncReader.read (some b) callerBuf env =
          some ⟨.error resultUnavailableErr, some [], callerBuf, false⟩) ∧
      (env.pendingAfterCancel ≠ 0 →
        SyncReader.read (some b) callerBuf env =
          SyncReader.read (some b) callerBuf
            ⟨some env.lateComp, env.pendingAfterCancel, env.lateComp⟩)) ∧
    (∀ (b callerBuf : List Nat) (env : WriteEnv),
      callerBuf ≠ [] → env.timelyComp = none →
      (env.pendingAfterCancel = 0 →
        SyncWriter.write (some b) callerBuf env =
          some ⟨.error resultUnavailableErr, some [], false⟩) ∧
      (env.pendingAfterCancel ≠ 0 →
        SyncWriter.write (some b) callerBuf env =
          SyncWriter.write (some b) callerBuf
            ⟨some env.lateComp, env.pendingAfterCancel, env.lateComp⟩)) := by
  constructor
  · intro b callerBuf env hne htimely
    have hne' : callerBuf.isEmpty = false := by
      simpa [List.isEmpty_iff] using hne
    constructor
    · intro hpend
      simp [SyncReader.read, hne', obtainCompletion, htimely, hpend]
    · intro hpend
      simp [SyncReader.read, hne', obtainCompletion, htimely, hpend]
  · intro b callerBuf env hne htimely
    have hne' : callerBuf.isEmpty = false := by
      simpa [List.isEmpty_iff] using hne
    constructor
    · intro hpend
      simp [SyncWriter.write, hne', obtainCompletion, htimely, hpend]
    · intro hpend
      simp [SyncWriter.write, hne', obtainCompletion, htimely, hpend]

/-- C2 witness: a timed-out read that finds nothing pending after
cancellation fails with the `Other` error and an empty buffer restored. -/
theorem claim_C2_deadline_cancellation_witness :
    SyncReader.read (some [7]) [0]
        ⟨Option.none, 0, ⟨Option.none, []⟩⟩ =
      some ⟨.error resultUnavailableErr, some [], [0], false⟩ :=
  (claim_C2_deadline_cancellation.1 [7] [0]
      ⟨Option.none, 0, ⟨Option.none, []⟩⟩ (by decide) rfl).1 rfl

/-- C3: for every read or write call that returns (on every exit path),
the engine's reuse slot is occupied again: the completion's buffer or a
replacement empty buffer is always restored. -/
theorem claim_C3_slot_always_restored :
    (∀ (b callerBuf : List Nat) (env : ReadEnv) (o : ReadOutcome),
      SyncReader.read (some b) callerBuf env = some o → o.slot.isSome) ∧
    (∀ (b callerBuf : List Nat) (env : WriteEnv) (o : WriteOutcome),
      SyncWriter.write (some b) callerBuf env = some o → o.slot.isSome) := by
  constructor
  · intro b callerBuf env o h
    unfold SyncReader.read at h
    dsimp only at h
    repeat' split at h
    all_goals first | (cases h; rfl) | cases h
  · intro b callerBuf env o h
    unfold SyncWriter.write at h
    dsimp only at h
    repeat' split at h
    all_goals first | (cases h; rfl) | cases h

/-- C3 witness: a successful read restores the completion's buffer. -/
theorem claim_C3_slot_always_restored_witness :
    (SyncReader.read (some []) [0]
        ⟨some ⟨Option.none, [9]⟩, 1, ⟨Option.none, []⟩⟩ = some ⟨.ok 1, some [9], [9], false⟩) ∧
    Option.isSome (some ([9] : List Nat)) = true :=
  ⟨rfl, claim_C3_slot_always_restored.1 [] [0]
      ⟨some ⟨Option.none, [9]⟩, 1, ⟨Option.none, []⟩⟩
      ⟨.ok 1, some [9], [9], false⟩ rfl⟩

/-! ## Theorems: the serial session (claims C4–C5) -/

/-- C4: the session's connected flag moves only from true to false, and
once false, every `read`, `write`, `set_config`, `set_dtr_rts` and
`set_break` call fails with a `NotConnected` error without attempting the
underlying transfer. -/
theorem claim_C4_sticky_disconnect :
    (∀ (s : CdcState) (env : UsbCallEnv),
      ((CdcSerial.read s env).state.is_connected = true → s.is_connected = true) ∧
      ((CdcSerial.write s env).state.is_connected = true → s.is_connected = true)) ∧
    (∀ (s : CdcState) (env : UsbCallEnv) (conf : SerialConfig) (dtr rts v : Bool),
      ((CdcSerial.set_config s env conf).state.is_connected = true →
        s.is_connected = true) ∧
      ((CdcSerial.set_dtr_rts s env dtr rts).state.is_connected = true →
        s.is_connected = true) ∧
      ((CdcSerial.set_break_state s env v).state.is_connected = true →
        s.is_connected = true)) ∧
    (∀ (s : CdcState) (env : UsbCallEnv) (conf : SerialConfig) (dtr rts v : Bool),
      s.is_connected = false →
      CdcSerial.read s env = ⟨s, .error disconnectedErr, false⟩ ∧
      CdcSerial.write s env = ⟨s, .error disconnectedErr, false⟩ ∧
      CdcSerial.set_config s env conf = ⟨s, .error disconnectedErr, false⟩ ∧
      CdcSerial.set_dtr_rts s env dtr rts = ⟨s, .error disconnectedErr, false⟩ ∧
      CdcSerial.set_break_state s env v = ⟨s, .error disconnectedErr, false⟩) := by
  have hctrl : ∀ (s : CdcState) (env : UsbCallEnv) (len : Nat),
      (CdcSerial.cdc_acm_ctrl_set s env len).state.is_connected = true →
      s.is_connected = true := by
    intro s env len h
    by_cases hc : s.is_connected
    · exact hc
    · simp [CdcSerial.cdc_acm_ctrl_set, CdcSerial.get_handle, hc] at h
  have hctrlff : ∀ (s : CdcState) (env : UsbCallEnv) (len : Nat),
      s.is_connected = false →
      CdcSerial.cdc_acm_ctrl_set s env len = ⟨s, .error disconnectedErr, false⟩ := by
    intro s env len hc
    simp [CdcSerial.cdc_acm_ctrl_set, CdcSerial.get_handle, hc]
  refine ⟨?_, ?_, ?_⟩
  · intro s env
    constructor
    · intro h
      by_cases hc : s.is_connected
      · exact hc
      · simp [CdcSerial.read, CdcSerial.get_handle, hc] at h
    · intro h
      by_cases hc : s.is_connected
      · exact hc
      · simp [CdcSerial.write, CdcSerial.get_handle, hc] at h
  · intro s env conf dtr rts v
    refine ⟨?_, ?_, ?_⟩
    · intro h
      apply hctrl s env conf.toLineCoding.length
      unfold CdcSerial.set_config at h
      dsimp only at h
      split at h <;> simpa using h
    · intro h
      apply hctrl s env 0
      unfold CdcSerial.set_dtr_rts at h
      dsimp only at h
      split at h <;> simpa using h
    · intro h
      exact hctrl s env 0 h
  · intro s env conf dtr rts v hc
    refine ⟨?_, ?_, ?_, ?_, ?_⟩
    · simp [CdcSerial.read, CdcSerial.get_handle, hc]
    · simp [CdcSerial.write, CdcSerial.get_handle, hc]
    · simp [CdcSerial.set_config, hctrlff s env _ hc]
    · simp [CdcSerial.set_dtr_rts, hctrlff s env _ hc]
    · exact hctrlff s env 0 hc

/-- C4 witness: a disconnected session's `read` fails fast. -/
theorem claim_C4_sticky_disconnect_witness :
    CdcSerial.read ⟨false, Option.none, (false, false)⟩ ⟨.ok 3, true⟩ =
      ⟨⟨false, Option.none, (false, false)⟩, .error disconnectedErr, false⟩ :=
  (claim_C4_sticky_disconnect.2.2 ⟨false, Option.none, (false, false)⟩
      ⟨.ok 3, true⟩ SerialConfig.default false false false rfl).1

/-- The line coding is always exactly 7 bytes long. -/
theorem toLineCoding_length (c : SerialConfig) : c.toLineCoding.length = 7 := by
  simp [SerialConfig.toLineCoding, u32ToLeBytes]

/-- C5: a `SET_LINE_CODING` control write reporting fewer than 7 bytes
makes `set_config` fail with the short-write (`IncompleteTransfer`)
error and leaves the cached configuration unchanged; the cache is
updated exactly by a control write succeeding with 7 bytes. -/
theorem claim_C5_short_line_coding_write :
    (∀ (s : CdcState) (env : UsbCallEnv) (conf : SerialConfig) (n : Nat),
      s.is_connected = true → env.usbResult = .ok n → n < 7 →
      (CdcSerial.set_config s env conf).result = .error wrongWrittenSizeErr ∧
      (CdcSerial.set_config s env conf).state.ser_conf = s.ser_conf) ∧
    (∀ (s : CdcState) (env : UsbCallEnv) (conf : SerialConfig),
      (CdcSerial.set_config s env conf).state.ser_conf ≠ s.ser_conf →
      env.usbResult = .ok 7) ∧
    (∀ (s : CdcState) (env : UsbCallEnv) (conf : SerialConfig),
      s.is_connected = true → env.usbResult = .ok 7 →
      (CdcSerial.set_config s env conf).result = .ok () ∧
      (CdcSerial.set_config s env conf).state.ser_conf = some conf) := by
  refine ⟨?_, ?_, ?_⟩
  · intro s env conf n hc hres hlt
    have hne : ¬n = conf.toLineCoding.length := by
      rw [toLineCoding_length]; omega
    constructor <;>
      simp [CdcSerial.set_config, CdcSerial.cdc_acm_ctrl_set,
        CdcSerial.get_handle, hc, hres, hne]
  · intro s env conf h
    by_cases hc : s.is_connected
    · rcases hres : env.usbResult with e | n
      · exfalso
        apply h
        simp [CdcSerial.set_config, CdcSerial.cdc_acm_ctrl_set,
          CdcSerial.get_handle, CdcSerial.err_map_to_io, hc, hres]
        split <;> rfl
      · by_cases h7 : n = conf.toLineCoding.length
        · rw [toLineCoding_length] at h7
          rw [h7]
        · exfalso
          apply h
          simp [CdcSerial.set_config, CdcSerial.cdc_acm_ctrl_set,
            CdcSerial.get_handle, hc, hres, h7]
    · exfalso
      apply h
      simp only [Bool.not_eq_true] at hc
      simp [CdcSerial.set_config, CdcSerial.cdc_acm_ctrl_set,
        CdcSerial.get_handle, hc]
  · intro s env conf hc hres
    have h7 : (7 : Nat) = conf.toLineCoding.length := (toLineCoding_length conf).symm
    constructor <;>
      simp [CdcSerial.set_config, CdcSerial.cdc_acm_ctrl_set,
        CdcSerial.get_handle, hc, hres, ← h7]

/-- C5 witness: a 6-byte write fails with the short-write error and does
not touch the cache; a 7-byte write succeeds and caches the config. -/
theorem claim_C5_short_line_coding_write_witness :
    ((CdcSerial.set_config ⟨true, Option.none, (false, false)⟩ ⟨.ok 6, true⟩
        SerialConfig.default).result = .error wrongWrittenSizeErr ∧
      (CdcSerial.set_config ⟨true, Option.none, (false, false)⟩ ⟨.ok 6, true⟩
        SerialConfig.default).state.ser_conf = Option.none) ∧
    (CdcSerial.set_config ⟨true, Option.none, (false, false)⟩ ⟨.ok 7, true⟩
        SerialConfig.default).state.ser_conf = some SerialConfig.default :=
  ⟨claim_C5_short_line_coding_write.1 ⟨true, Option.none, (false, false)⟩
      ⟨.ok 6, true⟩ SerialConfig.default 6 rfl rfl (by decide),
    (claim_C5_short_line_coding_write.2.2 ⟨true, Option.none, (false, false)⟩
      ⟨.ok 7, true⟩ SerialConfig.default rfl rfl).2⟩

/-! ## Theorems: the line coding (claim C6) -/

/-- C6: the 7-byte line coding places the baud rate little-endian in
bytes 0–3, the stop-bits code in byte 4, the parity code in byte 5 and
the data-bits value in byte 6; in particular the default config
`9600,N,8,1` encodes to `[0x80, 0x25, 0, 0, 0, 0, 8]`. -/
theorem claim_C6_line_coding_layout :
    (∀ c : SerialConfig, c.baud_rate < 2 ^ 32 →
      c.toLineCoding.length = 7 ∧
      leValue4 c.toLineCoding = c.baud_rate ∧
      c.toLineCoding.drop 4 = [c.stop_bits.code, c.parity.code, c.data_bits.value]) ∧
    SerialConfig.toLineCoding ⟨9600, .none, .eight, .one⟩ =
      [0x80, 0x25, 0, 0, 0, 0, 8] := by
  constructor
  · intro c hb
    refine ⟨toLineCoding_length c, ?_, ?_⟩
    · simp only [SerialConfig.toLineCoding, u32ToLeBytes, List.cons_append,
        List.nil_append, leValue4]
      omega
    · simp [SerialConfig.toLineCoding, u32ToLeBytes]
  · decide

/-- C6 witness: the layout facts at the default configuration. -/
theorem claim_C6_line_coding_layout_witness :
    (SerialConfig.toLineCoding ⟨9600, .none, .eight, .one⟩).length = 7 ∧
    leValue4 (SerialConfig.toLineCoding ⟨9600, .none, .eight, .one⟩) = 9600 ∧
    (SerialConfig.toLineCoding ⟨9600, .none, .eight, .one⟩).drop 4 = [0, 0, 8] :=
  claim_C6_line_coding_layout.1 ⟨9600, .none, .eight, .one⟩ (by decide)

/-! ## Theorems: the interface matcher and endpoint selection (C8, C9)

The loop equivalences first: the `get_or_insert` accumulation of the
matcher and the endpoint loop compute `List.find?`. -/

theorem cdcAcmIntrsLoop_eq (l : List InterfaceInfo)
    (intr_comm intr_data : Option InterfaceInfo) :
    cdcAcmIntrsLoop l intr_comm intr_data =
      (intr_comm <|> l.find? isCommIntr,
       intr_data <|> l.find? fun i => !isCommIntr i && isDataIntr i) := by
  induction l generalizing intr_comm intr_data with
  | nil => simp [cdcAcmIntrsLoop]
  | cons i rest ih =>
    by_cases hcomm : isCommIntr i
    · simp only [cdcAcmIntrsLoop, hcomm, if_true, ih, List.find?]
      rcases intr_comm with _ | c <;> simp [hcomm]
    · by_cases hdata : isDataIntr i
      · simp only [cdcAcmIntrsLoop, hcomm, hdata, if_true, if_false, ih, List.find?]
        rcases intr_data with _ | d <;> simp [hcomm, hdata]
      · simp only [cdcAcmIntrsLoop, hcomm, hdata, if_false, ih, List.find?]
        simp [hcomm, hdata]

/-- A Data-class interface (class 0x0A) never passes the Communication
test (class 0x02), so the `else if` guard is redundant. -/
theorem find_data_guard (l : List InterfaceInfo) :
    (l.find? fun i => !isCommIntr i && isDataIntr i) = l.find? isDataIntr := by
  have hfun : (fun i => !isCommIntr i && isDataIntr i) = isDataIntr := by
    funext i
    by_cases hd : isDataIntr i
    · have hcomm : isCommIntr i = false := by
        simp only [isDataIntr, USB_INTR_CLASS_CDC_DATA, decide_eq_true_eq] at hd
        simp [isCommIntr, USB_INTR_CLASS_COMM, hd]
      simp [hcomm, hd]
    · simp [hd]
  rw [hfun]

/-- The matcher, characterized by `List.find?`. -/
theorem cdc_acm_intrs_eq (dev : DeviceInfo) (intrs : List InterfaceInfo)
    (h : dev.interfaces = some intrs) :
    CdcSerial.cdc_acm_intrs dev =
      match intrs.find? isCommIntr, intrs.find? isDataIntr with
      | some c, some d => some (c, d)
      | _, _ => none := by
  simp only [CdcSerial.cdc_acm_intrs, h, cdcAcmIntrsLoop_eq, find_data_guard,
    Option.none_orElse]
  rcases intrs.find? isCommIntr with _ | c <;>
    rcases intrs.find? isDataIntr with _ | d <;> rfl

theorem selectBulkLoop_eq (l : List EndpointInfo)
    (endp_r endp_w : Option EndpointInfo) :
    selectBulkLoop l endp_r endp_w =
      (endp_r <|> l.find? fun e => e.direction = EndpointDirection.in',
       endp_w <|> l.find? fun e => !(e.direction = EndpointDirection.in')) := by
  induction l generalizing endp_r endp_w with
  | nil => simp [selectBulkLoop]
  | cons e rest ih =>
    by_cases hdir : e.direction = EndpointDirection.in'
    · simp only [selectBulkLoop, hdir, if_true, ih, List.find?]
      rcases endp_r with _ | r <;> simp [hdir]
    · simp only [selectBulkLoop, hdir, if_false, ih, List.find?]
      rcases endp_w with _ | w <;> simp [hdir]

/-- With only two directions, "not IN" is exactly OUT. -/
theorem find_not_in_eq_out (l : List EndpointInfo) :
    (l.find? fun e => !(e.direction = EndpointDirection.in')) =
      l.find? fun e => e.direction = EndpointDirection.out := by
  have hfun : (fun (e : EndpointInfo) => !(e.direction = EndpointDirection.in')) =
      fun e => decide (e.direction = EndpointDirection.out) := by
    funext e
    rcases hd : e.direction <;> simp [hd]
  rw [hfun]

/-- C9: the matcher returns the first Communication-class (0x02/0x02) and
the first Data-class (0x0A) interface entries, is "not matched" when
either is missing (in particular on a device exposing only a Data
interface), and `probe` keeps exactly the matched devices. -/
theorem claim_C9_matcher_first_and_probe_filter :
    (∀ (dev : DeviceInfo) (intrs : List InterfaceInfo),
      dev.interfaces = some intrs →
      CdcSerial.cdc_acm_intrs dev =
        match intrs.find? isCommIntr, intrs.find? isDataIntr with
        | some c, some d => some (c, d)
        | _, _ => none) ∧
    (∀ (dev : DeviceInfo) (intrs : List InterfaceInfo),
      dev.interfaces = some intrs →
      (∀ i ∈ intrs, isCommIntr i = false) →
      CdcSerial.cdc_acm_intrs dev = none) ∧
    (∀ devs : List DeviceInfo,
      CdcSerial.probe devs =
        devs.filter fun dev => (CdcSerial.cdc_acm_intrs dev).isSome) := by
  refine ⟨cdc_acm_intrs_eq, ?_, ?_⟩
  · intro dev intrs h hnone
    rw [cdc_acm_intrs_eq dev intrs h]
    have : intrs.find? isCommIntr = none := by
      rw [List.find?_eq_none]
      intro i hi
      simp [hnone i hi]
    rw [this]
  · intro devs
    induction devs with
    | nil => rfl
    | cons dev rest ih =>
      by_cases hm : (CdcSerial.cdc_acm_intrs dev).isSome <;>
        simp [CdcSerial.probe, hm, ih, List.filter]

/-- C9 witness: a device exposing only a Data interface is not matched,
and `probe` drops it. -/
theorem claim_C9_matcher_first_and_probe_filter_witness :
    CdcSerial.cdc_acm_intrs
        ⟨some [⟨0, some 0, 0x0A, 0, 0, some []⟩]⟩ = Option.none ∧
    CdcSerial.probe [⟨some [⟨0, some 0, 0x0A, 0, 0, some []⟩]⟩] = [] := by
  have h1 := claim_C9_matcher_first_and_probe_filter.2.1
      ⟨some [⟨0, some 0, 0x0A, 0, 0, some []⟩]⟩
      [⟨0, some 0, 0x0A, 0, 0, some []⟩] rfl (by decide)
  have h2 := claim_C9_matcher_first_and_probe_filter.2.2
      [⟨some [⟨0, some 0, 0x0A, 0, 0, some []⟩]⟩]
  refine ⟨h1, ?_⟩
  rw [h2]
  simp [h1, List.filter]

/-! ### Claim C8: alternate-setting selection

The spec says the Data interface's *first alternate setting exposing both
bulk directions* is selected.  The code keeps only the first Data-class
interface entry and inspects that entry's endpoints alone.  The device
below separates the two behaviours: alternate setting 0 of the Data
interface has only a bulk-IN endpoint, alternate setting 1 has both. -/

def bulkInEndp : EndpointInfo :=
  ⟨1, 0x81, .in', .bulk, 64, 0⟩

def bulkOutEndp : EndpointInfo :=
  ⟨1, 0x01, .out, .bulk, 64, 0⟩

def commIntrC8 : InterfaceInfo :=
  ⟨0, some 0, 0x02, 0x02, 1, some []⟩

def dataAlt0C8 : InterfaceInfo :=
  ⟨1, some 0, 0x0A, 0, 0, some [bulkInEndp]⟩

def dataAlt1C8 : InterfaceInfo :=
  ⟨1, some 1, 0x0A, 0, 0, some [bulkInEndp, bulkOutEndp]⟩

def altDeviceC8 : DeviceInfo :=
  ⟨some [commIntrC8, dataAlt0C8, dataAlt1C8]⟩

/-- C8 counterexample: on `altDeviceC8`, alternate setting 1 of the Data
interface exposes both bulk directions (so the claim predicts success,
selecting it), yet `build` fails with `EndpointsNotFound`: it only ever
looks at the first Data-class entry. -/
theorem claim_C8_counterexample_alt_setting :
    CdcSerial.build_endpoints altDeviceC8 = .error .endpointsNotFound ∧
    InterfaceInfo.hasBothBulk dataAlt1C8 = true ∧
    specFirstAltWithBothBulk altDeviceC8 = some dataAlt1C8 :=
  ⟨rfl, rfl, rfl⟩

/-- C8 amended: opening a matched device inspects only the Data interface
entry returned by the matcher (the first Data-class entry); it selects
that entry's first bulk-IN and first bulk-OUT endpoints, and fails with
`EndpointsNotFound` exactly when that one entry lacks a bulk endpoint in
either direction — other alternate settings are never scanned. -/
theorem claim_C8_amended_first_data_entry :
    ∀ (dev : DeviceInfo) (ic da : InterfaceInfo) (endps : List EndpointInfo),
      CdcSerial.cdc_acm_intrs dev = some (ic, da) →
      da.endpoints = some endps →
      (∀ r w,
        (endps.filter fun e => e.transfer_type = EndpointType.bulk).find?
            (fun e => e.direction = EndpointDirection.in') = some r →
        (endps.filter fun e => e.transfer_type = EndpointType.bulk).find?
            (fun e => e.direction = EndpointDirection.out) = some w →
        CdcSerial.build_endpoints dev = .ok (r, w)) ∧
      (((endps.filter fun e => e.transfer_type = EndpointType.bulk).find?
            (fun e => e.direction = EndpointDirection.in') = none ∨
        (endps.filter fun e => e.transfer_type = EndpointType.bulk).find?
            (fun e => e.direction = EndpointDirection.out) = none) →
        CdcSerial.build_endpoints dev = .error .endpointsNotFound) := by
  intro dev ic da endps hm he
  have hbuild : CdcSerial.build_endpoints dev =
      match (endps.filter fun e => e.transfer_type = EndpointType.bulk).find?
          (fun e => e.direction = EndpointDirection.in'),
        (endps.filter fun e => e.transfer_type = EndpointType.bulk).find?
          (fun e => e.direction = EndpointDirection.out) with
      | some r, some w => .ok (r, w)
      | _, _ => .error .endpointsNotFound := by
    simp only [CdcSerial.build_endpoints, hm, he, selectBulkLoop_eq,
      find_not_in_eq_out, Option.none_orElse]
    generalize (endps.filter fun e => e.transfer_type = EndpointType.bulk).find?
        (fun e => e.direction = EndpointDirection.in') = fr
    generalize (endps.filter fun e => e.transfer_type = EndpointType.bulk).find?
        (fun e => e.direction = EndpointDirection.out) = fw
    rcases fr with _ | r <;> rcases fw with _ | w <;> rfl
  constructor
  · intro r w hr hw
    rw [hbuild, hr, hw]
  · intro hmiss
    rw [hbuild]
    rcases hmiss with hr | hw
    · rw [hr]
    · rw [hw]
      generalize (endps.filter fun e => e.transfer_type = EndpointType.bulk).find?
          (fun e => e.direction = EndpointDirection.in') = fr
      rcases fr with _ | r <;> rfl

/-- C8 amended witness: on `altDeviceC8` the matcher yields the first
Data-class entry (alternate setting 0), whose lone bulk endpoint is IN,
so `build` fails with `EndpointsNotFound`. -/
theorem claim_C8_amended_first_data_entry_witness :
    CdcSerial.build_endpoints altDeviceC8 = .error .endpointsNotFound :=
  (claim_C8_amended_first_data_entry altDeviceC8 commIntrC8 dataAlt0C8
      [bulkInEndp] rfl rfl).2 (Or.inr rfl)

/-! ## Lemmas on the textual codec -/

theorem dropWhile_eq_self_of_all (p : Char → Bool) :
    ∀ (cs : List Char), (∀ c ∈ cs, p c = false) → cs.dropWhile p = cs
  | [], _ => rfl
  | c :: rest, h => by
      have hc := h c (by simp)
      simp [List.dropWhile, hc]

theorem trimChars_eq_self (cs : List Char) (h : ∀ c ∈ cs, isWsChar c = false) :
    trimChars cs = cs := by
  unfold trimChars
  rw [dropWhile_eq_self_of_all _ cs h,
    dropWhile_eq_self_of_all _ cs.reverse
      (fun c hc => h c (List.mem_reverse.mp hc)),
    List.reverse_reverse]

theorem splitComma_append_comma :
    ∀ (xs ys : List Char), (∀ c ∈ xs, c ≠ ',') →
      splitComma (xs ++ ',' :: ys) = xs :: splitComma ys
  | [], ys, _ => by simp [splitComma]
  | x :: xs, ys, h => by
      have hx : ¬x = ',' := h x (by simp)
      have ih := splitComma_append_comma xs ys fun c hc => h c (by simp [hc])
      simp [splitComma, hx, ih]

theorem splitComma_no_comma :
    ∀ (cs : List Char), (∀ c ∈ cs, c ≠ ',') → splitComma cs = [cs]
  | [], _ => rfl
  | c :: rest, h => by
      have hc : ¬c = ',' := h c (by simp)
      have ih := splitComma_no_comma rest fun d hd => h d (by simp [hd])
      simp [splitComma, hc, ih]

theorem digitToChar_toNat (d : Nat) (hd : d < 10) :
    (digitToChar d).toNat = 48 + d := by
  interval_cases d <;> decide

theorem isDigitChar_digitToChar (d : Nat) (hd : d < 10) :
    isDigitChar (digitToChar d) = true := by
  interval_cases d <;> decide

theorem digit_not_comma {c : Char} (h : isDigitChar c = true) : c ≠ ',' := by
  simp only [isDigitChar, Bool.and_eq_true, decide_eq_true_eq] at h
  rintro rfl
  revert h
  decide

theorem digit_not_plus {c : Char} (h : isDigitChar c = true) : c ≠ '+' := by
  simp only [isDigitChar, Bool.and_eq_true, decide_eq_true_eq] at h
  rintro rfl
  revert h
  decide

theorem digit_not_ws {c : Char} (h : isDigitChar c = true) : isWsChar c = false := by
  simp only [isDigitChar, Bool.and_eq_true, decide_eq_true_eq] at h
  by_contra h'
  simp only [Bool.not_eq_false, isWsChar, Bool.or_eq_true, decide_eq_true_eq] at h'
  rcases h' with ((rfl | rfl) | rfl) | rfl <;> revert h <;> decide

theorem natChars_ne_nil (n : Nat) : natChars n ≠ [] := by
  unfold natChars
  split <;> simp

theorem natChars_all_digits (n : Nat) :
    ∀ c ∈ natChars n, isDigitChar c = true := by
  induction n using Nat.strong_induction_on with
  | _ n ih =>
    intro c hc
    unfold natChars at hc
    split at hc
    · rename_i h10
      simp only [List.mem_singleton] at hc
      subst hc
      exact isDigitChar_digitToChar n h10
    · rename_i h10
      rw [List.mem_append] at hc
      rcases hc with hc | hc
      · exact ih (n / 10) (Nat.div_lt_self (by omega) (by omega)) c hc
      · simp only [List.mem_singleton] at hc
        subst hc
        exact isDigitChar_digitToChar (n % 10) (Nat.mod_lt _ (by omega))

theorem parseDigitsAcc_append (xs ys : List Char) (a : Nat) :
    parseDigitsAcc (xs ++ ys) a =
      match parseDigitsAcc xs a with
      | some v => parseDigitsAcc ys v
      | none => none := by
  induction xs generalizing a with
  | nil => simp [parseDigitsAcc]
  | cons c rest ih =>
    by_cases hc : isDigitChar c
    · simp [parseDigitsAcc, hc, ih]
    · simp [parseDigitsAcc, hc]

theorem parseDigitsAcc_natChars (n : Nat) :
    ∀ a, parseDigitsAcc (natChars n) a =
      some (a * 10 ^ (natChars n).length + n) := by
  induction n using Nat.strong_induction_on with
  | _ n ih =>
    intro a
    unfold natChars
    split
    · rename_i h10
      simp [parseDigitsAcc, isDigitChar_digitToChar n h10, digitToChar_toNat n h10]
    · rename_i h10
      have hdiv : n / 10 < n := Nat.div_lt_self (by omega) (by omega)
      have hm : n % 10 < 10 := Nat.mod_lt _ (by omega)
      rw [parseDigitsAcc_append, ih (n / 10) hdiv a]
      simp only [parseDigitsAcc, isDigitChar_digitToChar _ hm, if_true,
        digitToChar_toNat _ hm, List.length_append, List.length_singleton,
        Option.some.injEq, pow_succ]
      have h48 : 48 + n % 10 - 48 = n % 10 := by omega
      rw [h48]
      have hstep : (a * 10 ^ (natChars (n / 10)).length + n / 10) * 10 + n % 10 =
          a * (10 ^ (natChars (n / 10)).length * 10) + (n / 10 * 10 + n % 10) := by
        ring
      rw [hstep]
      omega

theorem stripPlus_natChars (n : Nat) : stripPlus (natChars n) = natChars n := by
  cases hcs : natChars n with
  | nil => rfl
  | cons c rest =>
    have hc : isDigitChar c = true :=
      natChars_all_digits n c (by rw [hcs]; simp)
    simp [stripPlus, digit_not_plus hc]

theorem parseU32_natChars (n : Nat) (h : n < 2 ^ 32) :
    parseU32 (natChars n) = some n := by
  cases hcs : natChars n with
  | nil => exact absurd hcs (natChars_ne_nil n)
  | cons c rest =>
    have hsp := stripPlus_natChars n
    have hparse := parseDigitsAcc_natChars n 0
    rw [hcs] at hsp hparse
    unfold parseU32
    rw [hsp]
    simp [hparse, h]
    omega

theorem trimChars_natChars (n : Nat) : trimChars (natChars n) = natChars n :=
  trimChars_eq_self _ fun c hc => digit_not_ws (natChars_all_digits n c hc)

theorem splitComma_format (c : SerialConfig) :
    splitComma (SerialConfig.format c) =
      [natChars c.baud_rate, [c.parity.letter], c.data_bits.chars,
        c.stop_bits.chars] := by
  unfold SerialConfig.format
  rw [splitComma_append_comma _ _
    fun x hx => digit_not_comma (natChars_all_digits _ x hx)]
  have h1 : c.parity.letter :: ',' ::
      (c.data_bits.chars ++ ',' :: c.stop_bits.chars) =
      [c.parity.letter] ++ ',' ::
        (c.data_bits.chars ++ ',' :: c.stop_bits.chars) := rfl
  rw [h1, splitComma_append_comma _ _ (by cases c.parity <;> decide),
    splitComma_append_comma _ _ (by cases c.data_bits <;> decide),
    splitComma_no_comma _ (by cases c.stop_bits <;> decide)]

theorem from_str_format (b : Nat) (hb : b < 2 ^ 32) (p : Parity)
    (d : DataBits) (s : StopBits) :
    SerialConfig.from_str (SerialConfig.format ⟨b, p, d, s⟩) =
      some ⟨b, p, d, s⟩ := by
  have hbaud : parseU32 (trimChars (natChars b)) = some b := by
    rw [trimChars_natChars]
    exact parseU32_natChars b hb
  cases p <;> cases d <;> cases s <;>
    (simp only [SerialConfig.from_str, splitComma_format, List.get?]
     rw [hbaud]
     rfl)

/-! ## Theorems: the textual codec (claims C7, C10) -/

/-- C7: for every valid `SerialConfig`, parsing the canonical textual
form produced by formatting it yields it back: `parse(format(c)) = c`. -/
theorem claim_C7_parse_format_roundtrip :
    ∀ c : SerialConfig, c.baud_rate < 2 ^ 32 →
      SerialConfig.from_str (SerialConfig.format c) = some c := by
  intro c hb
  cases c with
  | mk b p d s => exact from_str_format b hb p d s

/-- C7 witness: the round trip at the default configuration `9600,N,8,1`. -/
theorem claim_C7_parse_format_roundtrip_witness :
    SerialConfig.from_str (SerialConfig.format ⟨9600, .none, .eight, .one⟩) =
      some ⟨9600, .none, .eight, .one⟩ :=
  claim_C7_parse_format_roundtrip ⟨9600, .none, .eight, .one⟩ (by decide)

/-- C10: parsing is strictly more permissive than the canonical form:
fields are trimmed, the parity is matched only by its first character,
fields after the fourth are ignored, and some accepted strings are never
produced by formatting. -/
theorem claim_C10_parse_permissive :
    SerialConfig.from_str (" 9600 , N , 8 , 1 ".toList) =
      some ⟨9600, .none, .eight, .one⟩ ∧
    SerialConfig.from_str ("9600,Nonsense,8,1".toList) =
      some ⟨9600, .none, .eight, .one⟩ ∧
    SerialConfig.from_str ("9600,N,8,1,extra,fields".toList) =
      some ⟨9600, .none, .eight, .one⟩ ∧
    (∀ c : SerialConfig, SerialConfig.format c ≠ "9600,Nonsense,8,1".toList) := by
  refine ⟨by decide, by decide, by decide, ?_⟩
  intro c heq
  have h := congrArg splitComma heq
  rw [splitComma_format] at h
  have h2 : splitComma ("9600,Nonsense,8,1".toList) =
      ["9600".toList, "Nonsense".toList, "8".toList, "1".toList] := by decide
  rw [h2] at h
  simp at h

/-- C10 witness: formatting the default configuration never yields the
permissively-parsed string `9600,Nonsense,8,1`. -/
theorem claim_C10_parse_permissive_witness :
    SerialConfig.format SerialConfig.default ≠ "9600,Nonsense,8,1".toList :=
  claim_C10_parse_permissive.2.2.2 SerialConfig.default

end AndroidUsbser
